import Mathlib

/-!
Verification of the streaming conversation engine of blixt/go-llms.

Shallow embedding of:
- the shared data model of package `llms` (Message, ToolCall, StreamStatus);
- the OpenAI stream decoder `openai.Stream` (`Iter`, `Usage`, `CostUSD`,
  `Message`, `Text`, `ToolCall` accessors) over the scanned SSE lines;
- the Anthropic stream decoder `anthropic.Stream` over its event lines;
- the engine step `llms.LLM.step` and `llms.LLM.runToolCall` for an
  uncancelled context.

External collaborators (Go standard library, `content` and `tools`
packages) are modeled by their contracts: `json.Unmarshal` outcomes are
part of the input alphabet (a scanned line either lacks the `data: `
marker, is a sentinel, decodes to a value, or fails to decode);
`content.Content` is an append-only item list whose text content is the
concatenation of appended fragments; `tools.Toolbox.Get` is a partial
lookup by name and `tools.Toolbox.Run` a total function from name and
argument bytes to a result.

Go `panic` is modeled as the `Option.none` outcome of the affected
function, since a panic aborts the goroutine and (unrecovered) the
process.
-/

namespace GoLLMs

/-! ## Data model (package llms, package content) -/

/-- llms.ToolCall: `ID`, `Name`, and the incrementally accumulated
`Arguments` byte sequence (modeled as a string). -/
structure ToolCall where
  id : String
  name : String
  arguments : String
deriving Repr, DecidableEq

/-- content item: text, image URL, or raw JSON (package content; the item
kinds are fixed by content_test.go). -/
inductive ContentItem where
  | text (s : String)
  | imageURL (url : String)
  | json (data : String)
deriving Repr, DecidableEq

/-- content.Content: an ordered list of content items. -/
abbrev Content := List ContentItem

/-- llms.Message: one turn of the conversation history. -/
structure Message where
  role : String
  content : Content
  toolCalls : List ToolCall
  toolCallID : String
deriving Repr, DecidableEq

/-- llms.StreamStatus together with the value the associated accessor
(`Text()` for a Text status, `ToolCall()` for the three tool statuses)
returns at the moment the status is yielded to the consumer. -/
inductive Event where
  | text (delta : String)
  | toolCallBegin (tc : ToolCall)
  | toolCallData (tc : ToolCall)
  | toolCallReady (tc : ToolCall)
deriving Repr, DecidableEq

/-- Zero value of llms.ToolCall (returned by the `ToolCall()` accessor
when no tool call has been opened yet). -/
def emptyToolCall : ToolCall := { id := "", name := "", arguments := "" }

/-- Text concatenation of the `Text()` deltas of an event sequence, in
emission order. -/
def textConcat : List Event → String
  | [] => ""
  | Event.text d :: rest => d ++ textConcat rest
  | _ :: rest => textConcat rest

/-! ## OpenAI decoder (openai.Stream) -/

/-- openai usage: `prompt_tokens` and `completion_tokens` (Go `int`). -/
structure Usage where
  promptTokens : Int
  completionTokens : Int
deriving Repr, DecidableEq

/-- openai.toolCallDelta. -/
structure ToolCallDelta where
  index : Nat
  id : String
  name : String
  arguments : String
deriving Repr, DecidableEq

/-- openai.toolCallDelta.ToLLM. -/
def ToolCallDelta.toLLM (t : ToolCallDelta) : ToolCall :=
  { id := t.id, name := t.name, arguments := t.arguments }

/-- openai.chatCompletionDelta (role, content, tool_calls). -/
structure ChatCompletionDelta where
  role : String
  content : String
  toolCalls : List ToolCallDelta
deriving Repr, DecidableEq

/-- openai.chatCompletionChoice (delta and finish_reason; the remaining
JSON fields are never read by Stream.Iter). -/
structure ChatCompletionChoice where
  delta : ChatCompletionDelta
  finishReason : Option String
deriving Repr, DecidableEq

/-- openai.chatCompletionChunk (choices and usage; the remaining JSON
fields are never read by Stream.Iter). -/
structure ChatCompletionChunk where
  choices : List ChatCompletionChoice
  usage : Option Usage
deriving Repr, DecidableEq

/-- One line of the OpenAI SSE response body as classified by the loop
body of Stream.Iter: either the `data: ` marker is absent, or the payload
is the `[DONE]` sentinel, or json.Unmarshal yields a chunk, or
json.Unmarshal fails (malformed incremental record). -/
inductive SSEItem where
  | noData
  | done
  | chunk (c : ChatCompletionChunk)
  | malformed
deriving Repr, DecidableEq

/-- Mutable state of openai.Stream: the assembled message (role, the text
content accumulated by content.Append, tool calls), the last text delta,
the stored usage value, and the sticky error flag. -/
structure OpenAIStream where
  role : String
  contentText : String
  toolCalls : List ToolCall
  lastText : String
  usage : Option Usage
  err : Bool
deriving Repr, DecidableEq

/-- openai.Stream.ToolCall: last element of the assembled tool call list,
or the zero ToolCall when the list is empty. -/
def OpenAIStream.toolCall (s : OpenAIStream) : ToolCall :=
  s.toolCalls.getLast?.getD emptyToolCall

/-- openai.Stream.Message rendered as an llms.Message: the content holds
the accumulated text (content.Append only ever appends text fragments in
this decoder). -/
def OpenAIStream.messageOf (s : OpenAIStream) : Message :=
  { role := s.role,
    content := if s.contentText = "" then [] else [ContentItem.text s.contentText],
    toolCalls := s.toolCalls,
    toolCallID := "" }

/-- Zero value of the decoder state (fresh openai.Stream). -/
def initOpenAIStream : OpenAIStream :=
  { role := "", contentText := "", toolCalls := [], lastText := "", usage := none, err := false }

/-- Outcome of processing one unit of vendor framing: continue scanning,
stop the scan loop (the Go `break` / `return` paths), or panic. -/
inductive StepOut (σ : Type) where
  | next (s : σ) (evs : List Event)
  | stop (s : σ) (evs : List Event)
  | panicked
deriving Repr, DecidableEq

/-- Lines 237 to 239 of openai.go: `if chunk.Usage != nil { s.usage = chunk.Usage }`
(the stored usage is replaced, not accumulated). -/
def openaiApplyUsage (s : OpenAIStream) (c : ChatCompletionChunk) : OpenAIStream :=
  match c.usage with
  | some u => { s with usage := some u }
  | none => s

/-- Lines 244 to 253 of openai.go: record the delta role, store the text
delta in lastText, and if it is non-empty append it to the message content
and yield a Text status. -/
def openaiTextPart (s : OpenAIStream) (delta : ChatCompletionDelta) :
    OpenAIStream × List Event :=
  let s := if delta.role ≠ "" then { s with role := delta.role } else s
  let s := { s with lastText := delta.content }
  if s.lastText ≠ "" then
    ({ s with contentText := s.contentText ++ s.lastText }, [Event.text s.lastText])
  else
    (s, [])

/-- Lines 254 to 279 of openai.go: the tool-call part of the loop body.
More than one tool call per chunk panics; a delta at an existing index
must address the last tool call (else panic) and extends its arguments,
yielding ToolCallData; a delta at a new index first yields a synthesized
ToolCallReady when the index is positive, then opens the new call and
yields ToolCallBegin. -/
def openaiToolPart (s : OpenAIStream) :
    List ToolCallDelta → Option (OpenAIStream × List Event)
  | [] => some (s, [])
  | [td] =>
    if td.index < s.toolCalls.length then
      if td.index ≠ s.toolCalls.length - 1 then
        none
      else
        let old := s.toolCalls.getD td.index emptyToolCall
        let upd := { old with arguments := old.arguments ++ td.arguments }
        let s' := { s with toolCalls := s.toolCalls.set td.index upd }
        some (s', [Event.toolCallData s'.toolCall])
    else
      let evs := if td.index > 0 then [Event.toolCallReady s.toolCall] else []
      let s' := { s with toolCalls := s.toolCalls ++ [td.toLLM] }
      some (s', evs ++ [Event.toolCallBegin s'.toolCall])
  | _ => none

/-- Loop body of openai.Stream.Iter (lines 224 to 280 of openai.go) for
one scanned line. A malformed record sets the sticky error and breaks out
of the scan loop. -/
def openaiProcessLine (s : OpenAIStream) : SSEItem → StepOut OpenAIStream
  | SSEItem.noData => StepOut.next s []
  | SSEItem.done => StepOut.next s []
  | SSEItem.malformed => StepOut.stop { s with err := true } []
  | SSEItem.chunk c =>
    let s := openaiApplyUsage s c
    match c.choices with
    | [] => StepOut.next s []
    | choice :: _ =>
      let p := openaiTextPart s choice.delta
      match openaiToolPart p.1 choice.delta.toolCalls with
      | none => StepOut.panicked
      | some (s', evs') => StepOut.next s' (p.2 ++ evs')

/-- Scan loop of openai.Stream.Iter: process lines until the input is
exhausted or the loop breaks; `none` models a panic. -/
def openaiScan (s : OpenAIStream) : List SSEItem → Option (OpenAIStream × List Event)
  | [] => some (s, [])
  | item :: rest =>
    match openaiProcessLine s item with
    | StepOut.panicked => none
    | StepOut.stop s' evs => some (s', evs)
    | StepOut.next s' evs =>
      match openaiScan s' rest with
      | none => none
      | some (s'', evs') => some (s'', evs ++ evs')

/-- openai.Stream.Iter in full (lines 220 to 287 of openai.go): after the
scan loop ends (normally or via break), a final ToolCallReady is yielded
when at least one tool call was opened. -/
def openaiIter (items : List SSEItem) : Option (OpenAIStream × List Event) :=
  match openaiScan initOpenAIStream items with
  | none => none
  | some (s, evs) =>
    if s.toolCalls.length > 0 then some (s, evs ++ [Event.toolCallReady s.toolCall])
    else some (s, evs)

/-- openai.Stream.Usage: the stored usage report, or zeros when none was
received. -/
def openaiUsage (s : OpenAIStream) : Int × Int :=
  match s.usage with
  | none => (0, 0)
  | some u => (u.promptTokens, u.completionTokens)

/-! ## Pricing and cost (openai.Stream.CostUSD, anthropic.Stream.CostUSD) -/

/-- Per-million-token input and output prices in USD (the `pricing` struct
of both providers). Prices are exact decimals, modeled as rationals. -/
structure Pricing where
  inputCost : ℚ
  outputCost : ℚ
deriving Repr, DecidableEq

/-- openai.modelPricing, entry for entry. Go map lookup by exact key is
modeled as association-list lookup; all keys are distinct. -/
def openaiModelPricing : List (String × Pricing) := [
  ("gpt-4.5-preview", ⟨75.00, 150.00⟩),
  ("gpt-4.5-preview-2025-02-27", ⟨75.00, 150.00⟩),
  ("gpt-4o", ⟨2.50, 10.00⟩),
  ("gpt-4o-2024-08-06", ⟨2.50, 10.00⟩),
  ("gpt-4o-2024-11-20", ⟨2.50, 10.00⟩),
  ("gpt-4o-2024-05-13", ⟨5.00, 15.00⟩),
  ("gpt-4o-audio-preview", ⟨2.50, 10.00⟩),
  ("gpt-4o-audio-preview-2024-12-17", ⟨2.50, 10.00⟩),
  ("gpt-4o-audio-preview-2024-10-01", ⟨2.50, 10.00⟩),
  ("gpt-4o-realtime-preview", ⟨5.00, 20.00⟩),
  ("gpt-4o-realtime-preview-2024-12-17", ⟨5.00, 20.00⟩),
  ("gpt-4o-realtime-preview-2024-10-01", ⟨5.00, 20.00⟩),
  ("chatgpt-4o-latest", ⟨5.00, 15.00⟩),
  ("gpt-4o-mini", ⟨0.15, 0.60⟩),
  ("gpt-4o-mini-2024-07-18", ⟨0.15, 0.60⟩),
  ("gpt-4o-mini-audio-preview", ⟨0.15, 0.60⟩),
  ("gpt-4o-mini-audio-preview-2024-12-17", ⟨0.15, 0.60⟩),
  ("gpt-4o-mini-realtime-preview", ⟨0.60, 2.40⟩),
  ("gpt-4o-mini-realtime-preview-2024-12-17", ⟨0.60, 2.40⟩),
  ("o1", ⟨15.00, 60.00⟩),
  ("o1-2024-12-17", ⟨15.00, 60.00⟩),
  ("o1-preview-2024-09-12", ⟨15.00, 60.00⟩),
  ("o1-pro", ⟨150.00, 600.00⟩),
  ("o1-pro-2025-03-19", ⟨150.00, 600.00⟩),
  ("o1-mini", ⟨1.10, 4.40⟩),
  ("o1-mini-2024-09-12", ⟨1.10, 4.40⟩),
  ("o3-mini", ⟨1.10, 4.40⟩),
  ("o3-mini-2025-01-31", ⟨1.10, 4.40⟩),
  ("gpt-4-turbo", ⟨10.00, 30.00⟩),
  ("gpt-4-turbo-2024-04-09", ⟨10.00, 30.00⟩),
  ("gpt-4-0125-preview", ⟨10.00, 30.00⟩),
  ("gpt-4-1106-preview", ⟨10.00, 30.00⟩),
  ("gpt-4-1106-vision-preview", ⟨10.00, 30.00⟩),
  ("gpt-4", ⟨30.00, 60.00⟩),
  ("gpt-4-0613", ⟨30.00, 60.00⟩),
  ("gpt-4-0314", ⟨30.00, 60.00⟩),
  ("gpt-4-32k", ⟨60.00, 120.00⟩),
  ("gpt-4-32k-0613", ⟨60.00, 120.00⟩),
  ("gpt-3.5-turbo", ⟨0.50, 1.50⟩),
  ("gpt-3.5-turbo-0125", ⟨0.50, 1.50⟩),
  ("gpt-3.5-turbo-1106", ⟨1.00, 2.00⟩),
  ("gpt-3.5-turbo-0613", ⟨1.50, 2.00⟩),
  ("gpt-3.5-0301", ⟨1.50, 2.00⟩),
  ("gpt-3.5-turbo-instruct", ⟨1.50, 2.00⟩),
  ("gpt-3.5-turbo-16k-0613", ⟨3.00, 4.00⟩),
  ("davinci-002", ⟨2.00, 2.00⟩),
  ("babbage-002", ⟨0.40, 0.40⟩)]

/-- openai.Stream.CostUSD (lines 203 to 211 of openai.go): exact map
lookup of the model; an unknown model costs 0; otherwise
tokens times per-million price divided by 1e6, summed for input and
output. There is no fallback of any kind. -/
def openaiCostUSD (model : String) (s : OpenAIStream) : ℚ :=
  match openaiModelPricing.lookup model with
  | none => 0
  | some p =>
    let u := openaiUsage s
    (u.1 : ℚ) * p.inputCost / 1000000 + (u.2 : ℚ) * p.outputCost / 1000000

/-! ## Anthropic decoder (anthropic.Stream) -/

/-- anthropic usage report: input and output token counts (Go `int`). -/
structure AnthUsage where
  inputTokens : Int
  outputTokens : Int
deriving Repr, DecidableEq

/-- One line of the Anthropic SSE body as classified by the loop body of
anthropic.Stream.Iter: no `data: ` marker, a json.Unmarshal failure, or a
decoded streamEvent flattened into the cases the switch statements
distinguish (`message_start`, `content_block_delta` with `text_delta` or
`input_json_delta` or another delta type, `content_block_start` with or
without a `tool_use` block, `content_block_stop`, `message_delta`,
`message_stop`, or an unrecognized event type). -/
inductive AnthItem where
  | noData
  | malformed
  | messageStart (role : String) (usage : Option AnthUsage)
  | contentTextDelta (text : String)
  | contentInputJsonDelta (partialJson : String)
  | contentOtherDelta
  | blockStartToolUse (id name : String)
  | blockStartOther
  | blockStop
  | messageDelta (usage : Option AnthUsage) (stopReason : String)
  | messageStop
  | otherEvent
deriving Repr, DecidableEq

/-- Mutable state of anthropic.Stream: assembled message, last text
delta, the two running token counters, and the sticky error flag. -/
structure AnthStream where
  role : String
  contentText : String
  toolCalls : List ToolCall
  lastText : String
  inputTokens : Int
  outputTokens : Int
  err : Bool
deriving Repr, DecidableEq

/-- anthropic.Stream.ToolCall: last element of the assembled tool call
list, or the zero ToolCall when the list is empty. -/
def AnthStream.toolCall (s : AnthStream) : ToolCall :=
  s.toolCalls.getLast?.getD emptyToolCall

/-- Zero value of the decoder state (fresh anthropic.Stream). -/
def initAnthStream : AnthStream :=
  { role := "", contentText := "", toolCalls := [], lastText := "",
    inputTokens := 0, outputTokens := 0, err := false }

/-- Loop body of anthropic.Stream.Iter (lines 345 to 411 of the anthropic
source) for one scanned line. Usage reports are added into the running
counters (message_start and message_delta); an abnormal stop reason
(anything other than empty, tool_use, or end_turn) sets the sticky error
and returns; message_stop returns; a malformed line sets the sticky error
and breaks. An input_json_delta with no open tool call indexes the tool
call slice at -1 and panics. -/
def anthProcessLine (s : AnthStream) : AnthItem → StepOut AnthStream
  | AnthItem.noData => StepOut.next s []
  | AnthItem.malformed => StepOut.stop { s with err := true } []
  | AnthItem.messageStart role usage =>
    let s := { s with role := role }
    match usage with
    | some u =>
      let s' := { s with inputTokens := s.inputTokens + u.inputTokens,
                         outputTokens := s.outputTokens + u.outputTokens }
      StepOut.next s' []
    | none => StepOut.next s []
  | AnthItem.contentTextDelta t =>
    let s := { s with lastText := t, contentText := s.contentText ++ t }
    StepOut.next s [Event.text t]
  | AnthItem.contentInputJsonDelta pj =>
    match s.toolCalls with
    | [] => StepOut.panicked
    | _ :: _ =>
      let i := s.toolCalls.length - 1
      let old := s.toolCalls.getD i emptyToolCall
      let upd := { old with arguments := old.arguments ++ pj }
      let s' := { s with toolCalls := s.toolCalls.set i upd }
      StepOut.next s' [Event.toolCallData s'.toolCall]
  | AnthItem.contentOtherDelta => StepOut.next s []
  | AnthItem.blockStartToolUse id name =>
    let s' := { s with toolCalls := s.toolCalls ++ [{ id := id, name := name, arguments := "" }] }
    StepOut.next s' [Event.toolCallBegin s'.toolCall]
  | AnthItem.blockStartOther => StepOut.next s []
  | AnthItem.blockStop =>
    if s.toolCalls.length > 0 then StepOut.next s [Event.toolCallReady s.toolCall]
    else StepOut.next s []
  | AnthItem.messageDelta usage stopReason =>
    let s :=
      match usage with
      | some u => { s with inputTokens := s.inputTokens + u.inputTokens,
                           outputTokens := s.outputTokens + u.outputTokens }
      | none => s
    if stopReason ≠ "" ∧ stopReason ≠ "tool_use" ∧ stopReason ≠ "end_turn" then
      StepOut.stop { s with err := true } []
    else StepOut.next s []
  | AnthItem.messageStop => StepOut.stop s []
  | AnthItem.otherEvent => StepOut.next s []

/-- Scan loop of anthropic.Stream.Iter; unlike the OpenAI decoder there is
no code after the loop, so break and return coincide. -/
def anthScan (s : AnthStream) : List AnthItem → Option (AnthStream × List Event)
  | [] => some (s, [])
  | item :: rest =>
    match anthProcessLine s item with
    | StepOut.panicked => none
    | StepOut.stop s' evs => some (s', evs)
    | StepOut.next s' evs =>
      match anthScan s' rest with
      | none => none
      | some (s'', evs') => some (s'', evs ++ evs')

/-- anthropic.Stream.Iter in full. -/
def anthIter (items : List AnthItem) : Option (AnthStream × List Event) :=
  anthScan initAnthStream items

/-- anthropic.modelPricing, entry for entry. -/
def anthropicModelPricing : List (String × Pricing) := [
  ("claude-3-7-sonnet", ⟨3.00, 15.00⟩),
  ("claude-3-5-sonnet", ⟨3.00, 15.00⟩),
  ("claude-3-5-haiku", ⟨0.80, 4.00⟩),
  ("claude-3-opus", ⟨15.00, 75.00⟩),
  ("claude-3-sonnet", ⟨3.00, 15.00⟩),
  ("claude-3-haiku", ⟨0.25, 1.25⟩)]

/-- strings.HasPrefix(s, p): p is a leading substring of s. -/
def goHasPrefix (s p : String) : Bool := p.data.isPrefixOf s.data

/-- anthropic.Stream.CostUSD: exact map lookup first; failing that, the
first table key that is a leading substring of the model identifier; 0
when nothing matches. The Go fallback ranges over a map in unspecified
order, but no table key is a leading substring of another, so at most one
key can match any model identifier and the scan order is immaterial; the
model fixes the table order. -/
def anthropicCostUSD (model : String) (s : AnthStream) : ℚ :=
  match anthropicModelPricing.lookup model with
  | some p =>
    (s.inputTokens : ℚ) * p.inputCost / 1000000 + (s.outputTokens : ℚ) * p.outputCost / 1000000
  | none =>
    match anthropicModelPricing.find? (fun kv => goHasPrefix model kv.1) with
    | some kv =>
      (s.inputTokens : ℚ) * kv.2.inputCost / 1000000 + (s.outputTokens : ℚ) * kv.2.outputCost / 1000000
    | none => 0

/-! ## Conversation engine (llms.LLM.step, llms.LLM.runToolCall)

The tools collaborator is passed in as two functions: `toolbox`, modeling
tools.Toolbox.Get (name to optional tool, the tool identified by its
name), and `run`, modeling tools.Toolbox.Run (name and argument bytes to
a result). The engine is modeled for an uncancelled context; tool status
callbacks are driven by the tool itself and the claims do not involve
them, so the run collaborator yields only its result. -/

/-- Named image artifact of a tool result (tools.Result.Images entry). -/
structure Image where
  name : String
  url : String
deriving Repr, DecidableEq

/-- Result of tools.Toolbox.Run: a JSON serialization plus optional named
image artifacts. -/
structure ToolResult where
  json : String
  images : List Image
deriving Repr, DecidableEq

/-- llms.Update: the tagged union sent over the update channel. Updates
carrying a Tool pointer are modeled as carrying the tool name. -/
inductive Update where
  | text (text : String)
  | toolStart (toolName : String)
  | toolStatus (status : String) (toolName : String)
  | toolDone (resultJSON : String) (toolName : String)
  | error (message : String)
deriving Repr, DecidableEq

/-- One externally observable action of LLM.step, in temporal order: an
Update published on the channel, an invocation of tools.Toolbox.Run, or
an append to the conversation history l.messages. -/
inductive Action where
  | update (u : Update)
  | execTool (name arguments : String)
  | appendMessage (m : Message)
deriving Repr, DecidableEq

/-- Message construction of llms.LLM.runToolCall (lines 225 to 252 of
llm.go): one tool-role message carrying the serialized result, keyed by
the call id (or the tool name when the id is empty); when the result
carries images, one additional user-role message whose text names the
first image (`images[0].Name`) and whose content then holds an image item
for every returned image. -/
def runToolCallMessages (toolCall : ToolCall) (result : ToolResult) : List Message :=
  let callID := if toolCall.id = "" then toolCall.name else toolCall.id
  let messages : List Message :=
    [{ role := "tool", content := [ContentItem.json result.json],
       toolCalls := [], toolCallID := callID }]
  match result.images with
  | [] => messages
  | img :: _ =>
    let note := "Here is " ++ img.name ++ ". This is an automated message, not actually from the user."
    let auxContent := ContentItem.text note ::
      result.images.map (fun i => ContentItem.imageURL i.url)
    messages ++ [{ role := "user", content := auxContent, toolCalls := [], toolCallID := "" }]

/-- Observable actions of llms.LLM.runToolCall: the Toolbox.Run
invocation, then the ToolDone update. The duplicate-id check above it
only prints a warning and changes nothing. -/
def runToolCallActions (run : String → String → ToolResult) (tc : ToolCall) : List Action :=
  let result := run tc.name tc.arguments
  [Action.execTool tc.name tc.arguments,
   Action.update (Update.toolDone result.json tc.name)]

/-- Status-switch of the iteration goroutine of llms.LLM.step (lines 151
to 176 of llm.go), for one status: Text publishes a TextUpdate;
ToolCallBegin resolves the tool and panics when the registry cannot
(modeled as `none`), otherwise publishes ToolStartUpdate; ToolCallData is
ignored (no case); ToolCallReady runs the tool call inline and collects
its messages into toolMessages. -/
def stepEventActions (toolbox : String → Option String)
    (run : String → String → ToolResult) :
    Event → Option (List Action × List Message)
  | Event.text d => some ([Action.update (Update.text d)], [])
  | Event.toolCallBegin tc =>
    match toolbox tc.name with
    | none => none
    | some _ => some ([Action.update (Update.toolStart tc.name)], [])
  | Event.toolCallData _ => some ([], [])
  | Event.toolCallReady tc =>
    some (runToolCallActions run tc, runToolCallMessages tc (run tc.name tc.arguments))

/-- Full consumption of the decoder's status sequence by the iteration
goroutine: actions in temporal order and the accumulated toolMessages. -/
def stepIterate (toolbox : String → Option String)
    (run : String → String → ToolResult) :
    List Event → Option (List Action × List Message)
  | [] => some ([], [])
  | ev :: rest =>
    match stepEventActions toolbox run ev with
    | none => none
    | some (acts, msgs) =>
      match stepIterate toolbox run rest with
      | none => none
      | some (acts', msgs') => some (acts ++ acts', msgs ++ msgs')

/-- Comparator passed to slices.SortStableFunc in LLM.step (lines 190 to
198 of llm.go): tool-role messages sort before all others; any other pair
compares equal. -/
def toolMessageCompare (a b : Message) : Int :=
  if a.role = "tool" ∧ b.role ≠ "tool" then -1
  else if a.role ≠ "tool" ∧ b.role = "tool" then 1
  else 0

/-- slices.SortStableFunc(toolMessages, toolMessageCompare): the Go
standard library contract is a stable sort by the comparator; insertion
sort is stable, and all stable sorts by one comparator agree, so this is
an exact model of that call. -/
def sortToolMessages (msgs : List Message) : List Message :=
  List.insertionSort (fun a b => toolMessageCompare a b ≤ 0) msgs

/-- Result of one LLM.step call: the error returned to the chat loop
(which publishes it as an Error update), the observable actions in
temporal order, and the continue flag (`len(toolMessages) > 0`). -/
structure StepResult where
  error : Option String
  actions : List Action
  shouldContinue : Bool
deriving Repr, DecidableEq

/-- llms.LLM.step (lines 109 to 205 of llm.go) for an uncancelled
context, fed with the decoder's yielded status sequence and its finished
message. `setupErr` is the pre-iteration `stream.Err()` check (the only
point at which step ever consults Err); after iteration the finished
message is appended to history unconditionally, the stably sorted
toolMessages are appended after it, no error is returned, and the step
continues iff a tool produced messages. `none` models a panic inside the
iteration goroutine. -/
def llmStep (toolbox : String → Option String) (run : String → String → ToolResult)
    (setupErr : Bool) (events : List Event) (finishedMessage : Message) :
    Option StepResult :=
  if setupErr then
    some { error := some "LLM returned error response", actions := [], shouldContinue := false }
  else
    match stepIterate toolbox run events with
    | none => none
    | some (acts, toolMessages) =>
      some { error := none,
             actions := acts ++ Action.appendMessage finishedMessage ::
               (sortToolMessages toolMessages).map Action.appendMessage,
             shouldContinue := decide (0 < toolMessages.length) }

/-- One full step against the OpenAI decoder: run Stream.Iter over the
response lines, then feed LLM.step with the yielded statuses and the
decoder's finished Message(). The setup error is false because the
response body started streaming. -/
def openaiStepPipeline (toolbox : String → Option String)
    (run : String → String → ToolResult) (items : List SSEItem) :
    Option StepResult :=
  match openaiIter items with
  | none => none
  | some (s, evs) => llmStep toolbox run false evs s.messageOf

/-! ## Concrete fixtures used by witnesses and counterexamples -/

/-- Fixture: OpenAI SSE stream carrying the text `Hello, world` in two
deltas and nothing else. -/
def helloItems : List SSEItem :=
  [SSEItem.chunk ⟨[⟨⟨"assistant", "Hello, ", []⟩, none⟩], none⟩,
   SSEItem.chunk ⟨[⟨⟨"", "world", []⟩, none⟩], none⟩]

/-- Fixture: decoder state after consuming `helloItems`. -/
def helloFinal : OpenAIStream :=
  { role := "assistant", contentText := "Hello, world", toolCalls := [],
    lastText := "world", usage := none, err := false }

/-- Fixture: OpenAI decoder state with one open tool call. -/
def c7s : OpenAIStream :=
  { role := "assistant", contentText := "", toolCalls := [⟨"call0", "search", "null"⟩],
    lastText := "", usage := none, err := false }

/-- Fixture: a tool-call delta opening a second call at index 1. -/
def c7td : ToolCallDelta := ⟨1, "call1", "render", ""⟩

/-- Fixture: OpenAI stream that opens one tool call and then ends without
any explicit close event. -/
def c7items : List SSEItem :=
  [SSEItem.chunk ⟨[⟨⟨"", "", [⟨0, "a", "t1", ""⟩]⟩, none⟩], none⟩]

/-- Fixture: decoder state after consuming `c7items`. -/
def c7final : OpenAIStream :=
  { role := "", contentText := "", toolCalls := [⟨"a", "t1", ""⟩],
    lastText := "", usage := none, err := false }

/-- Fixture: a tool result carrying two named images. -/
def c10result : ToolResult :=
  { json := "true", images := [⟨"chart.png", "http-chart"⟩, ⟨"graph.png", "http-graph"⟩] }

/-- Fixture: the tool call that produced `c10result`. -/
def c10tc : ToolCall := ⟨"call9", "render", "null"⟩

/-- Fixture: OpenAI stream whose second line is a malformed record. -/
def c1items : List SSEItem :=
  [SSEItem.chunk ⟨[⟨⟨"assistant", "Hi", []⟩, none⟩], none⟩, SSEItem.malformed]

/-- Fixture: partially assembled message at the malformed record of
`c1items`. -/
def c1msg : Message :=
  { role := "assistant", content := [ContentItem.text "Hi"], toolCalls := [], toolCallID := "" }

/-- Fixture: the step result the engine produces for `c1items`. -/
def c1result : StepResult :=
  { error := none,
    actions := [Action.update (Update.text "Hi"), Action.appendMessage c1msg],
    shouldContinue := false }

/-- Fixture: registry resolving exactly the tool `t`. -/
def c2toolbox : String → Option String := fun n => if n = "t" then some "t" else none

/-- Fixture: run collaborator returning the JSON result `ok` with no
images. -/
def c2run : String → String → ToolResult := fun _ _ => { json := "ok", images := [] }

/-- Fixture: a completed tool call for the tool `t`. -/
def c2tc : ToolCall := ⟨"a", "t", "null"⟩

/-- Fixture: a status sequence whose tool call becomes ready before a
trailing text delta arrives. -/
def c2events : List Event :=
  [Event.toolCallBegin c2tc, Event.toolCallReady c2tc, Event.text "trailing"]

/-- Fixture: finished assistant message of the `c2events` turn. -/
def c2msg : Message :=
  { role := "assistant", content := [ContentItem.text "trailing"], toolCalls := [c2tc],
    toolCallID := "" }

/-- Fixture: the tool-role result message of the `c2events` turn. -/
def c2toolMsg : Message :=
  { role := "tool", content := [ContentItem.json "ok"], toolCalls := [], toolCallID := "a" }

/-- Fixture: action trace of the step over `c2events`. -/
def c2actions : List Action :=
  [Action.update (Update.toolStart "t"), Action.execTool "t" "null",
   Action.update (Update.toolDone "ok" "t"), Action.update (Update.text "trailing"),
   Action.appendMessage c2msg, Action.appendMessage c2toolMsg]

/-- Fixture: a finished assistant message requesting the unknown tool. -/
def c3msg : Message :=
  { role := "assistant", content := [], toolCalls := [⟨"x", "missing", ""⟩], toolCallID := "" }

/-- Fixture: Anthropic decoder state after one usage report of 7 input and
8 output tokens. -/
def c4anth : AnthStream :=
  { role := "assistant", contentText := "", toolCalls := [], lastText := "",
    inputTokens := 7, outputTokens := 8, err := false }

/-- Fixture: OpenAI decoder state holding the usage report (30, 40). -/
def c4oai : OpenAIStream := { initOpenAIStream with usage := some ⟨30, 40⟩ }

/-- Fixture: OpenAI decoder state with a million prompt tokens. -/
def c5stream : OpenAIStream := { initOpenAIStream with usage := some ⟨1000000, 0⟩ }

/-- Fixture: OpenAI decoder state after a chunk whose finish reason is the
abnormal `length`. -/
def c6final : OpenAIStream :=
  { role := "assistant", contentText := "hi", toolCalls := [], lastText := "hi",
    usage := none, err := false }

/-! ## Helper lemmas -/

theorem textConcat_append (a b : List Event) :
    textConcat (a ++ b) = textConcat a ++ textConcat b := by
  induction a with
  | nil => simp [textConcat]
  | cons e rest ih =>
    cases e <;> simp [textConcat, ih, String.append_assoc]

theorem openaiApplyUsage_fields (s : OpenAIStream) (c : ChatCompletionChunk) :
    (openaiApplyUsage s c).contentText = s.contentText ∧
    (openaiApplyUsage s c).toolCalls = s.toolCalls := by
  cases hu : c.usage <;> simp [openaiApplyUsage, hu]

theorem openaiTextPart_fields (s : OpenAIStream) (delta : ChatCompletionDelta) :
    (openaiTextPart s delta).1.contentText =
      s.contentText ++ textConcat (openaiTextPart s delta).2 ∧
    (openaiTextPart s delta).1.toolCalls = s.toolCalls ∧
    (openaiTextPart s delta).1.usage = s.usage := by
  unfold openaiTextPart
  by_cases hr : delta.role ≠ "" <;> by_cases hc : delta.content ≠ "" <;>
    simp [hr, hc, textConcat]

theorem openaiToolPart_fields (s : OpenAIStream) (tds : List ToolCallDelta)
    (s' : OpenAIStream) (evs : List Event)
    (h : openaiToolPart s tds = some (s', evs)) :
    s'.contentText = s.contentText ∧ textConcat evs = "" ∧ s'.usage = s.usage := by
  match tds with
  | [] =>
    simp only [openaiToolPart] at h
    obtain ⟨h1, h2⟩ := Prod.mk.injEq .. ▸ (Option.some.injEq .. ▸ h)
    subst h1; subst h2
    exact ⟨rfl, rfl, rfl⟩
  | [td] =>
    simp only [openaiToolPart] at h
    by_cases h1 : td.index < s.toolCalls.length
    · rw [if_pos h1] at h
      by_cases h2 : td.index ≠ s.toolCalls.length - 1
      · rw [if_pos h2] at h; cases h
      · rw [if_neg h2] at h
        obtain ⟨ha, hb⟩ := Prod.mk.injEq .. ▸ (Option.some.injEq .. ▸ h)
        subst ha; subst hb
        exact ⟨rfl, rfl, rfl⟩
    · rw [if_neg h1] at h
      obtain ⟨ha, hb⟩ := Prod.mk.injEq .. ▸ (Option.some.injEq .. ▸ h)
      subst ha; subst hb
      refine ⟨rfl, ?_, rfl⟩
      by_cases h3 : td.index > 0 <;> simp [h3, textConcat, textConcat_append]
  | td1 :: td2 :: rest =>
    simp only [openaiToolPart] at h
    cases h

theorem openaiProcessLine_contentText (s : OpenAIStream) (item : SSEItem) :
    (∀ s' evs, openaiProcessLine s item = StepOut.next s' evs →
        s'.contentText = s.contentText ++ textConcat evs) ∧
    (∀ s' evs, openaiProcessLine s item = StepOut.stop s' evs →
        s'.contentText = s.contentText ++ textConcat evs) := by
  cases item with
  | noData =>
    constructor <;> intro s' evs h <;> cases h
    simp [textConcat]
  | done =>
    constructor <;> intro s' evs h <;> cases h
    simp [textConcat]
  | malformed =>
    constructor <;> intro s' evs h <;> cases h
    simp [textConcat]
  | chunk c =>
    constructor <;> intro s' evs h
    · simp only [openaiProcessLine] at h
      split at h
      · cases h
        simp [textConcat, (openaiApplyUsage_fields s c).1]
      · rename_i choice tail hch
        split at h
        · cases h
        · rename_i s2 evs2 htp
          cases h
          obtain ⟨hct, hte, _⟩ := openaiToolPart_fields _ _ _ _ htp
          rw [textConcat_append, hct,
            (openaiTextPart_fields (openaiApplyUsage s c) choice.delta).1,
            (openaiApplyUsage_fields s c).1, hte]
          simp [String.append_assoc]
    · simp only [openaiProcessLine] at h
      split at h
      · cases h
      · split at h
        · cases h
        · cases h

theorem openaiScan_contentText :
    ∀ (items : List SSEItem) (s s' : OpenAIStream) (evs : List Event),
    openaiScan s items = some (s', evs) →
    s'.contentText = s.contentText ++ textConcat evs := by
  intro items
  induction items with
  | nil =>
    intro s s' evs h
    simp only [openaiScan, Option.some.injEq, Prod.mk.injEq] at h
    obtain ⟨h1, h2⟩ := h
    subst h1; subst h2
    simp [textConcat]
  | cons item rest ih =>
    intro s s' evs h
    simp only [openaiScan] at h
    split at h
    · cases h
    · rename_i s'' evs'' hp
      simp only [Option.some.injEq, Prod.mk.injEq] at h
      obtain ⟨h1, h2⟩ := h
      subst h1; subst h2
      exact (openaiProcessLine_contentText s item).2 _ _ hp
    · rename_i s'' evs'' hp
      split at h
      · cases h
      · rename_i s3 evs3 hs
        simp only [Option.some.injEq, Prod.mk.injEq] at h
        obtain ⟨h1, h2⟩ := h
        subst h1; subst h2
        rw [textConcat_append, ih s'' _ _ hs,
          (openaiProcessLine_contentText s item).1 _ _ hp, String.append_assoc]

theorem anthProcessLine_contentText (s : AnthStream) (item : AnthItem) :
    (∀ s' evs, anthProcessLine s item = StepOut.next s' evs →
        s'.contentText = s.contentText ++ textConcat evs) ∧
    (∀ s' evs, anthProcessLine s item = StepOut.stop s' evs →
        s'.contentText = s.contentText ++ textConcat evs) := by
  cases item with
  | noData =>
    constructor <;> intro s' evs h <;> cases h
    simp [textConcat]
  | malformed =>
    constructor <;> intro s' evs h <;> cases h
    simp [textConcat]
  | messageStart role usage =>
    constructor <;> intro s' evs h <;> simp only [anthProcessLine] at h <;> split at h <;>
      cases h <;> simp [textConcat]
  | contentTextDelta t =>
    constructor <;> intro s' evs h <;> cases h
    simp [textConcat]
  | contentInputJsonDelta pj =>
    constructor <;> intro s' evs h <;> simp only [anthProcessLine] at h <;> split at h <;>
      cases h
    simp [textConcat]
  | contentOtherDelta =>
    constructor <;> intro s' evs h <;> cases h
    simp [textConcat]
  | blockStartToolUse id name =>
    constructor <;> intro s' evs h <;> cases h
    simp [textConcat]
  | blockStartOther =>
    constructor <;> intro s' evs h <;> cases h
    simp [textConcat]
  | blockStop =>
    constructor <;> intro s' evs h <;> simp only [anthProcessLine] at h <;> split at h <;>
      cases h <;> simp [textConcat]
  | messageDelta usage stopReason =>
    constructor <;> intro s' evs h <;> simp only [anthProcessLine] at h <;> split at h <;>
      split at h <;> cases h <;> simp [textConcat]
  | messageStop =>
    constructor <;> intro s' evs h <;> cases h
    simp [textConcat]
  | otherEvent =>
    constructor <;> intro s' evs h <;> cases h
    simp [textConcat]

theorem anthScan_contentText :
    ∀ (items : List AnthItem) (s s' : AnthStream) (evs : List Event),
    anthScan s items = some (s', evs) →
    s'.contentText = s.contentText ++ textConcat evs := by
  intro items
  induction items with
  | nil =>
    intro s s' evs h
    simp only [anthScan, Option.some.injEq, Prod.mk.injEq] at h
    obtain ⟨h1, h2⟩ := h
    subst h1; subst h2
    simp [textConcat]
  | cons item rest ih =>
    intro s s' evs h
    simp only [anthScan] at h
    split at h
    · cases h
    · rename_i s'' evs'' hp
      simp only [Option.some.injEq, Prod.mk.injEq] at h
      obtain ⟨h1, h2⟩ := h
      subst h1; subst h2
      exact (anthProcessLine_contentText s item).2 _ _ hp
    · rename_i s'' evs'' hp
      split at h
      · cases h
      · rename_i s3 evs3 hs
        simp only [Option.some.injEq, Prod.mk.injEq] at h
        obtain ⟨h1, h2⟩ := h
        subst h1; subst h2
        rw [textConcat_append, ih s'' _ _ hs,
          (anthProcessLine_contentText s item).1 _ _ hp, String.append_assoc]

/-! ## C9 -/

/-- C9: for every decoder run, the concatenation of the `Text()` deltas in
emission order equals the full text content of the finished `Message()` —
holds for the OpenAI decoder and for the Anthropic decoder. -/
theorem C9_text_concat_eq_message :
    (∀ (items : List SSEItem) (s : OpenAIStream) (evs : List Event),
        openaiIter items = some (s, evs) → s.contentText = textConcat evs) ∧
    (∀ (items : List AnthItem) (s : AnthStream) (evs : List Event),
        anthIter items = some (s, evs) → s.contentText = textConcat evs) := by
  constructor
  · intro items s evs h
    unfold openaiIter at h
    split at h
    · cases h
    · rename_i s0 evs0 hscan
      have hbase := openaiScan_contentText items initOpenAIStream s0 evs0 hscan
      split at h <;>
        simp only [Option.some.injEq, Prod.mk.injEq] at h <;>
        obtain ⟨h1, h2⟩ := h <;> subst h1 <;> subst h2 <;>
        simpa [initOpenAIStream, textConcat_append, textConcat] using hbase
  · intro items s evs h
    unfold anthIter at h
    have hbase := anthScan_contentText items initAnthStream s evs h
    simpa [initAnthStream] using hbase

/-- Witness for C9: a two-chunk OpenAI stream with text deltas
`Hello, ` and `world`; the finished message text is `Hello, world`. -/
theorem openaiToolPart_new_index (s : OpenAIStream) (td : ToolCallDelta)
    (h1 : ¬ td.index < s.toolCalls.length) (h2 : 0 < td.index) :
    openaiToolPart s [td] =
      some ({ s with toolCalls := s.toolCalls ++ [td.toLLM] },
        [Event.toolCallReady s.toolCall, Event.toolCallBegin td.toLLM]) := by
  simp [openaiToolPart, if_neg h1, h2, OpenAIStream.toolCall, List.getLast?_concat]

/-! ## C7 -/

/-- C7: the OpenAI index-delta framing synthesizes a ToolCallReady for the
previously open tool call before emitting ToolCallBegin for a tool-call
delta at a new index greater than 0 (first at the level of the tool-call
section of the loop body, then for a whole chunk line), and synthesizes
one final ToolCallReady at end-of-stream whenever at least one tool call
was opened. -/
theorem C7_synthesized_tool_call_ready :
    (∀ (s : OpenAIStream) (td : ToolCallDelta),
        ¬ td.index < s.toolCalls.length → 0 < td.index →
        openaiToolPart s [td] =
          some ({ s with toolCalls := s.toolCalls ++ [td.toLLM] },
            [Event.toolCallReady s.toolCall, Event.toolCallBegin td.toLLM])) ∧
    (∀ (s : OpenAIStream) (td : ToolCallDelta) (fr : Option String) (u : Option Usage)
        (tail : List ChatCompletionChoice),
        ¬ td.index < s.toolCalls.length → 0 < td.index →
        ∃ s', openaiProcessLine s (SSEItem.chunk ⟨⟨⟨"", "", [td]⟩, fr⟩ :: tail, u⟩) =
            StepOut.next s'
              [Event.toolCallReady s.toolCall, Event.toolCallBegin td.toLLM] ∧
          s'.toolCalls = s.toolCalls ++ [td.toLLM]) ∧
    (∀ (items : List SSEItem) (s : OpenAIStream) (evs : List Event),
        openaiIter items = some (s, evs) → s.toolCalls ≠ [] →
        evs.getLast? = some (Event.toolCallReady s.toolCall)) := by
  refine ⟨openaiToolPart_new_index, ?_, ?_⟩
  · intro s td fr u tail h1 h2
    cases u with
    | none =>
      refine ⟨{ s with lastText := "", toolCalls := s.toolCalls ++ [td.toLLM] }, ?_, by simp⟩
      simp [openaiProcessLine, openaiApplyUsage, openaiTextPart, openaiToolPart,
        if_neg h1, h2, OpenAIStream.toolCall, List.getLast?_concat]
    | some uu =>
      refine ⟨{ s with usage := some uu, lastText := "", toolCalls := s.toolCalls ++ [td.toLLM] }, ?_, by simp⟩
      simp [openaiProcessLine, openaiApplyUsage, openaiTextPart, openaiToolPart,
        if_neg h1, h2, OpenAIStream.toolCall, List.getLast?_concat]
  · intro items s evs h hne
    unfold openaiIter at h
    split at h
    · cases h
    · rename_i s0 evs0 hscan
      split at h
      · simp only [Option.some.injEq, Prod.mk.injEq] at h
        obtain ⟨h1, h2⟩ := h
        subst h1; subst h2
        simp [List.getLast?_concat]
      · rename_i hlen
        simp only [Option.some.injEq, Prod.mk.injEq] at h
        obtain ⟨h1, h2⟩ := h
        subst h1; subst h2
        exact absurd (List.length_pos.mpr hne) hlen

/-- Witness for C7: a decoder state with one open tool call receives a
delta at fresh index 1, and a one-tool-call stream gets a final
synthesized ToolCallReady. -/
theorem C7_synthesized_tool_call_ready_witness :
    ((¬ c7td.index < c7s.toolCalls.length) ∧ 0 < c7td.index ∧
      openaiToolPart c7s [c7td] =
        some ({ c7s with toolCalls := c7s.toolCalls ++ [c7td.toLLM] },
          [Event.toolCallReady c7s.toolCall, Event.toolCallBegin c7td.toLLM])) ∧
    (openaiIter c7items =
        some (c7final, [Event.toolCallBegin ⟨"a", "t1", ""⟩, Event.toolCallReady ⟨"a", "t1", ""⟩]) ∧
      c7final.toolCalls ≠ [] ∧
      [Event.toolCallBegin ⟨"a", "t1", ""⟩, Event.toolCallReady ⟨"a", "t1", ""⟩].getLast? =
        some (Event.toolCallReady c7final.toolCall)) :=
  ⟨⟨by decide, by decide,
      C7_synthesized_tool_call_ready.1 c7s c7td (by decide) (by decide)⟩,
    by decide, by decide,
    C7_synthesized_tool_call_ready.2.2 c7items c7final _ (by decide) (by decide)⟩

theorem C9_text_concat_eq_message_witness :
    openaiIter helloItems = some (helloFinal, [Event.text "Hello, ", Event.text "world"]) ∧
    helloFinal.contentText = textConcat [Event.text "Hello, ", Event.text "world"] :=
  ⟨by decide, C9_text_concat_eq_message.1 helloItems helloFinal _ (by decide)⟩

/-! ## C8 and C10 -/

theorem orderedInsert_head {α : Type} (r : α → α → Prop) [DecidableRel r] (a : α)
    (l : List α) (h : ∀ b, l.head? = some b → r a b) :
    List.orderedInsert r a l = a :: l := by
  cases l with
  | nil => rfl
  | cons b t => simp [List.orderedInsert, h b rfl]

theorem orderedInsert_append {α : Type} (r : α → α → Prop) [DecidableRel r] (a : α)
    (l₁ l₂ : List α) (h : ∀ b ∈ l₁, ¬ r a b) :
    List.orderedInsert r a (l₁ ++ l₂) = l₁ ++ List.orderedInsert r a l₂ := by
  induction l₁ with
  | nil => rfl
  | cons b t ih =>
    rw [List.cons_append, List.orderedInsert, if_neg (h b (List.mem_cons_self b t)),
      ih (fun x hx => h x (List.mem_cons_of_mem b hx)), List.cons_append]

/-- Stable sort of a two-class comparator: the sorted list is the first
class in original order followed by the second class in original order. -/
theorem insertionSort_two_class {α : Type} (p : α → Bool) (r : α → α → Prop)
    [DecidableRel r] (hr : ∀ a b, r a b ↔ (p a = true ∨ p b = false)) :
    ∀ l : List α, List.insertionSort r l = l.filter p ++ l.filter (fun x => !p x) := by
  intro l
  induction l with
  | nil => rfl
  | cons m t ih =>
    simp only [List.insertionSort, ih]
    by_cases hm : p m = true
    · rw [orderedInsert_head r m _ (fun b _ => (hr m b).mpr (Or.inl hm))]
      simp [List.filter_cons, hm]
    · have hm' : p m = false := by simpa using hm
      rw [orderedInsert_append r m _ _ ?_, orderedInsert_head r m _ ?_]
      · simp [List.filter_cons, hm']
      · intro b hb
        have hbmem : b ∈ t.filter (fun x => !p x) := List.mem_of_mem_head? hb
        have hpb : p b = false := by simpa using (List.mem_filter.mp hbmem).2
        exact (hr m b).mpr (Or.inr hpb)
      · intro b hb hrab
        have hpb : p b = true := (List.mem_filter.mp hb).2
        rcases (hr m b).mp hrab with h1 | h1
        · rw [hm'] at h1; cases h1
        · rw [hpb] at h1; cases h1

theorem toolMessageCompare_le_iff (a b : Message) :
    toolMessageCompare a b ≤ 0 ↔ ((a.role == "tool") = true ∨ (b.role == "tool") = false) := by
  unfold toolMessageCompare
  split_ifs with h1 h2
  · simp [beq_iff_eq, h1.1]
  · constructor
    · intro hle; omega
    · intro hor
      rcases hor with h3 | h3
      · exact absurd (beq_iff_eq.mp h3) h2.1
      · exact absurd h2.2 (by simpa [beq_iff_eq] using h3)
  · constructor
    · intro _
      by_cases ha : a.role = "tool"
      · exact Or.inl (beq_iff_eq.mpr ha)
      · by_cases hb : b.role = "tool"
        · exact absurd ⟨ha, hb⟩ h2
        · exact Or.inr (by simp [beq_iff_eq, hb])
    · intro _; omega

/-- C8: the step's batch of tool-produced messages is stably sorted so all
tool-role messages precede all non-tool messages with each subgroup in its
original relative order, and a tool result carrying images yields the
tool-role result message plus one additional user-role message, never a
replacement. -/
theorem C8_stable_sort_and_aux_message :
    (∀ msgs : List Message,
        sortToolMessages msgs =
          msgs.filter (fun m => m.role == "tool") ++
            msgs.filter (fun m => !(m.role == "tool"))) ∧
    (∀ (tc : ToolCall) (result : ToolResult),
        (runToolCallMessages tc result).head? =
          some { role := "tool", content := [ContentItem.json result.json], toolCalls := [], toolCallID := if tc.id = "" then tc.name else tc.id } ∧
        (runToolCallMessages tc result).length = if result.images.isEmpty then 1 else 2) := by
  constructor
  · intro msgs
    exact insertionSort_two_class (fun m => m.role == "tool") _ toolMessageCompare_le_iff msgs
  · intro tc result
    cases himg : result.images with
    | nil => simp [runToolCallMessages, himg]
    | cons i irest => simp [runToolCallMessages, himg]

/-- C10: the auxiliary user-role message for a tool result with images
names only the first image in its explanatory text while attaching an
image reference for every returned image. -/
theorem C10_first_image_named_all_attached (tc : ToolCall) (result : ToolResult)
    (img : Image) (rest : List Image) (h : result.images = img :: rest) :
    runToolCallMessages tc result =
      [{ role := "tool", content := [ContentItem.json result.json], toolCalls := [], toolCallID := if tc.id = "" then tc.name else tc.id },
       { role := "user", content := ContentItem.text ("Here is " ++ img.name ++ ". This is an automated message, not actually from the user.") :: (img :: rest).map (fun i => ContentItem.imageURL i.url), toolCalls := [], toolCallID := "" }] := by
  simp [runToolCallMessages, h]

/-- Witness for C10: two returned images; the explanatory text names only
`chart.png`, yet both image URLs are attached. -/
theorem C10_first_image_named_all_attached_witness :
    c10result.images = ⟨"chart.png", "http-chart"⟩ :: [⟨"graph.png", "http-graph"⟩] ∧
    runToolCallMessages c10tc c10result =
      [{ role := "tool", content := [ContentItem.json "true"], toolCalls := [], toolCallID := "call9" },
       { role := "user", content := [ContentItem.text "Here is chart.png. This is an automated message, not actually from the user.", ContentItem.imageURL "http-chart", ContentItem.imageURL "http-graph"], toolCalls := [], toolCallID := "" }] := by
  refine ⟨rfl, ?_⟩
  rw [C10_first_image_named_all_attached c10tc c10result ⟨"chart.png", "http-chart"⟩
    [⟨"graph.png", "http-graph"⟩] rfl]
  decide

/-! ## C3 -/

/-- C3 (code bug): a ToolCallBegin naming a tool the registry cannot
resolve does not surface an Error update — the `tool not found` branch of
LLM.step calls Go `panic` (modeled as `none`), killing the process,
despite the adjacent TODO acknowledging the case should be handled more
gracefully. -/
theorem C3_unresolvable_tool_panics :
    llmStep (fun _ => none) (fun _ _ => { json := "null", images := [] }) false
      [Event.toolCallBegin ⟨"x", "missing", ""⟩] c3msg = none := rfl

/-! ## C2 -/

/-- Counterexample to C2 as stated: in the step over `c2events` the
Toolbox.Run invocation (position 1 of the action trace) happens during
iteration, before the trailing text update (position 3) and before the
assistant message is appended to history (position 4) — execution is not
deferred until after iteration and the history append. -/
theorem C2_counterexample :
    llmStep c2toolbox c2run false c2events c2msg =
      some { error := none, actions := c2actions, shouldContinue := true } ∧
    c2actions[1]? = some (Action.execTool "t" "null") ∧
    c2actions[3]? = some (Action.update (Update.text "trailing")) ∧
    c2actions[4]? = some (Action.appendMessage c2msg) :=
  ⟨by decide, by decide, by decide, by decide⟩

theorem stepIterate_ready_execTool (toolbox : String → Option String)
    (run : String → String → ToolResult) :
    ∀ (events : List Event) (acts : List Action) (msgs : List Message) (tc : ToolCall),
    stepIterate toolbox run events = some (acts, msgs) →
    Event.toolCallReady tc ∈ events →
    Action.execTool tc.name tc.arguments ∈ acts := by
  intro events
  induction events with
  | nil =>
    intro acts msgs tc h hmem
    cases hmem
  | cons ev rest ih =>
    intro acts msgs tc h hmem
    simp only [stepIterate] at h
    split at h
    · cases h
    · rename_i acts1 msgs1 hev
      split at h
      · cases h
      · rename_i acts2 msgs2 hrest
        simp only [Option.some.injEq, Prod.mk.injEq] at h
        obtain ⟨h1, h2⟩ := h
        subst h1; subst h2
        rcases List.mem_cons.mp hmem with heq | hmem'
        · subst heq
          simp only [stepEventActions, runToolCallActions, Option.some.injEq,
            Prod.mk.injEq] at hev
          obtain ⟨ha, hm⟩ := hev
          subst ha
          exact List.mem_append_left _ (List.mem_cons_self _ _)
        · exact List.mem_append_right _ (ih _ _ _ hrest hmem')

/-- C2 (amended): tool calls are executed inline during iteration, at the
moment each ToolCallReady status arrives — before the assistant's
finished Message() is appended to history; only the tool-result messages
are deferred to after the assistant message's append. -/
theorem C2_amended_inline_execution (toolbox : String → Option String)
    (run : String → String → ToolResult) (events : List Event) (m : Message)
    (tc : ToolCall) (r : StepResult)
    (hstep : llmStep toolbox run false events m = some r)
    (hready : Event.toolCallReady tc ∈ events) :
    ∃ pre post, r.actions = pre ++ Action.appendMessage m :: post ∧
      Action.execTool tc.name tc.arguments ∈ pre := by
  simp only [llmStep, Bool.false_eq_true, if_false] at hstep
  split at hstep
  · cases hstep
  · rename_i acts msgs hit
    simp only [Option.some.injEq] at hstep
    subst hstep
    exact ⟨acts, (sortToolMessages msgs).map Action.appendMessage, rfl,
      stepIterate_ready_execTool toolbox run events acts msgs tc hit hready⟩

/-- Witness for the amended C2 at the `c2events` fixture. -/
theorem C2_amended_inline_execution_witness :
    llmStep c2toolbox c2run false c2events c2msg =
      some { error := none, actions := c2actions, shouldContinue := true } ∧
    Event.toolCallReady c2tc ∈ c2events ∧
    (∃ pre post,
      StepResult.actions { error := none, actions := c2actions, shouldContinue := true } =
        pre ++ Action.appendMessage c2msg :: post ∧
      Action.execTool c2tc.name c2tc.arguments ∈ pre) :=
  ⟨by decide, by decide,
    C2_amended_inline_execution c2toolbox c2run c2events c2msg c2tc _ (by decide) (by decide)⟩

/-! ## C1 -/

/-- Counterexample to C1 as stated: on `c1items` the decoder's Err()
becomes non-nil at the malformed record, yet the step returns no error
(so no Error update is published), the partially assembled assistant
message IS appended to history, and the step returns normally. -/
theorem C1_counterexample :
    (openaiIter c1items).map (fun p => p.1.err) = some true ∧
    openaiStepPipeline (fun _ => none) (fun _ _ => { json := "null", images := [] })
      c1items = some c1result ∧
    c1result.error = none ∧
    Action.appendMessage c1msg ∈ c1result.actions :=
  ⟨by decide, by decide, rfl, by decide⟩

/-- C1 (amended): a malformed incremental record makes the decoder's
Err() non-nil and stops the scan loop at once (no further records are
consumed), but the engine never consults Err() after iteration: whenever
iteration completes without panic, the step returns no error and the
decoder's message — partial or not — is appended to history. -/
theorem C1_amended_error_ignored :
    (∀ (s : OpenAIStream) (rest : List SSEItem),
        openaiScan s (SSEItem.malformed :: rest) = some ({ s with err := true }, [])) ∧
    (∀ (toolbox : String → Option String) (run : String → String → ToolResult)
        (events : List Event) (m : Message) (r : StepResult),
        llmStep toolbox run false events m = some r →
        r.error = none ∧ ∃ pre post, r.actions = pre ++ Action.appendMessage m :: post) := by
  constructor
  · intro s rest
    simp [openaiScan, openaiProcessLine]
  · intro toolbox run events m r h
    simp only [llmStep, Bool.false_eq_true, if_false] at h
    split at h
    · cases h
    · rename_i acts msgs hit
      simp only [Option.some.injEq] at h
      subst h
      exact ⟨rfl, acts, (sortToolMessages msgs).map Action.appendMessage, rfl⟩

/-- Witness for the amended C1: the malformed-head scan equation at the
fresh decoder state, and the append-always property at the `c1items`
step. -/
theorem C1_amended_error_ignored_witness :
    openaiScan initOpenAIStream [SSEItem.malformed] =
      some ({ initOpenAIStream with err := true }, []) ∧
    llmStep (fun _ => none) (fun _ _ => { json := "null", images := [] }) false
      [Event.text "Hi"] c1msg = some c1result ∧
    (c1result.error = none ∧
      ∃ pre post, c1result.actions = pre ++ Action.appendMessage c1msg :: post) :=
  ⟨C1_amended_error_ignored.1 initOpenAIStream [], by decide,
    C1_amended_error_ignored.2 (fun _ => none) (fun _ _ => { json := "null", images := [] })
      [Event.text "Hi"] c1msg c1result (by decide)⟩

/-! ## C4 -/

/-- Counterexample to C4 as stated: an OpenAI response with the two usage
reports (10, 20) and (30, 40) leaves Usage() at the last report (30, 40),
not at the sum (40, 60). -/
theorem C4_counterexample :
    (openaiIter [SSEItem.chunk ⟨[], some ⟨10, 20⟩⟩, SSEItem.chunk ⟨[], some ⟨30, 40⟩⟩]).map
        (fun p => openaiUsage p.1) = some (30, 40) ∧
    ¬ (((30 : Int), (40 : Int)) = (10 + 30, 20 + 40)) :=
  ⟨by decide, by decide⟩

/-- C4 (amended): the Anthropic decoder sums every incremental usage
report into its running counters (message_start and message_delta alike),
while the OpenAI decoder overwrites its stored usage with each report, so
its Usage() equals the last report received, not the sum. -/
theorem C4_amended_usage_accumulation :
    (∀ (s : AnthStream) (role : String) (u : AnthUsage) (s' : AnthStream) (evs : List Event),
        anthProcessLine s (AnthItem.messageStart role (some u)) = StepOut.next s' evs →
        s'.inputTokens = s.inputTokens + u.inputTokens ∧
        s'.outputTokens = s.outputTokens + u.outputTokens) ∧
    (∀ (s : AnthStream) (u : AnthUsage) (s' : AnthStream) (evs : List Event),
        anthProcessLine s (AnthItem.messageDelta (some u) "") = StepOut.next s' evs →
        s'.inputTokens = s.inputTokens + u.inputTokens ∧
        s'.outputTokens = s.outputTokens + u.outputTokens) ∧
    (∀ (s : OpenAIStream) (c : ChatCompletionChunk) (u : Usage) (s' : OpenAIStream)
        (evs : List Event), c.usage = some u →
        openaiProcessLine s (SSEItem.chunk c) = StepOut.next s' evs →
        s'.usage = some u) := by
  refine ⟨?_, ?_, ?_⟩
  · intro s role u s' evs h
    simp only [anthProcessLine] at h
    cases h
    exact ⟨rfl, rfl⟩
  · intro s u s' evs h
    simp only [anthProcessLine] at h
    split at h
    · cases h
    · cases h
      exact ⟨rfl, rfl⟩
  · intro s c u s' evs hu h
    have husage : (openaiApplyUsage s c).usage = some u := by
      simp [openaiApplyUsage, hu]
    simp only [openaiProcessLine] at h
    split at h
    · cases h
      exact husage
    · rename_i choice tail hch
      split at h
      · cases h
      · rename_i s2 evs2 htp
        cases h
        rw [(openaiToolPart_fields _ _ _ _ htp).2.2, (openaiTextPart_fields _ _).2.2]
        exact husage

/-- Witness for the amended C4: an Anthropic message_start report (7, 8)
is added; an OpenAI usage chunk (30, 40) is stored as given. -/
theorem C4_amended_usage_accumulation_witness :
    (anthProcessLine initAnthStream (AnthItem.messageStart "assistant" (some ⟨7, 8⟩)) =
        StepOut.next c4anth [] ∧
      c4anth.inputTokens = initAnthStream.inputTokens + 7 ∧
      c4anth.outputTokens = initAnthStream.outputTokens + 8) ∧
    (openaiProcessLine initOpenAIStream (SSEItem.chunk ⟨[], some ⟨30, 40⟩⟩) =
        StepOut.next c4oai [] ∧
      c4oai.usage = some ⟨30, 40⟩) :=
  ⟨⟨by decide,
    C4_amended_usage_accumulation.1 initAnthStream "assistant" ⟨7, 8⟩ c4anth [] (by decide)⟩,
   by decide,
   C4_amended_usage_accumulation.2.2 initOpenAIStream ⟨[], some ⟨30, 40⟩⟩ ⟨30, 40⟩ c4oai []
     rfl (by decide)⟩

/-! ## C5 -/

theorem lookup_eq_none_of_ne {β : Type} (k : String) (l : List (String × β))
    (h : ∀ e ∈ l, e.1 ≠ k) : l.lookup k = none := by
  induction l with
  | nil => rfl
  | cons e rest ih =>
    obtain ⟨k1, v1⟩ := e
    have hne : (k == k1) = false := by
      have := h (k1, v1) (List.mem_cons_self _ _)
      simp only [ne_eq] at this
      simp [beq_iff_eq]
      exact fun hk => this hk.symm
    simp only [List.lookup, hne]
    exact ih (fun x hx => h x (List.mem_cons_of_mem _ hx))

/-- Counterexample to C5 as stated: the model `gpt-4o-2024-13-01` has no
exact entry in the OpenAI table but carries the known table key `gpt-4o`
as a leading substring; the claimed policy would price a million prompt
tokens at 2.5 USD, yet the OpenAI CostUSD returns exactly 0 because it
never attempts a leading-substring match. -/
theorem C5_counterexample :
    openaiCostUSD "gpt-4o-2024-13-01" c5stream = 0 ∧
    openaiModelPricing.lookup "gpt-4o-2024-13-01" = none ∧
    goHasPrefix "gpt-4o-2024-13-01" "gpt-4o" = true ∧
    openaiModelPricing.lookup "gpt-4o" = some ⟨2.50, 10.00⟩ ∧
    ¬ ((1000000 : ℚ) * (2.50 : ℚ) / 1000000 + (0 : ℚ) * (10.00 : ℚ) / 1000000 = 0) := by
  refine ⟨by decide, by decide, by decide, by rfl, by norm_num⟩

/-- C5 (amended): the Anthropic CostUSD follows the claimed policy —
exact table match first, then a leading-substring match, else exactly 0 —
while the OpenAI CostUSD only does the exact match and returns exactly 0
for every model absent from its table, even when a table key is a leading
substring of the model identifier. -/
theorem C5_amended_cost_policy :
    (∀ (model : String) (s : AnthStream) (p : Pricing),
        anthropicModelPricing.lookup model = some p →
        anthropicCostUSD model s = (s.inputTokens : ℚ) * p.inputCost / 1000000 +
          (s.outputTokens : ℚ) * p.outputCost / 1000000) ∧
    (∀ (model : String) (s : AnthStream) (kv : String × Pricing),
        (∀ e ∈ anthropicModelPricing, e.1 ≠ model) →
        anthropicModelPricing.find? (fun e => goHasPrefix model e.1) = some kv →
        anthropicCostUSD model s = (s.inputTokens : ℚ) * kv.2.inputCost / 1000000 +
          (s.outputTokens : ℚ) * kv.2.outputCost / 1000000) ∧
    (∀ (model : String) (s : AnthStream),
        (∀ e ∈ anthropicModelPricing, e.1 ≠ model ∧ goHasPrefix model e.1 = false) →
        anthropicCostUSD model s = 0) ∧
    (∀ (model : String) (s : OpenAIStream),
        (∀ e ∈ openaiModelPricing, e.1 ≠ model) →
        openaiCostUSD model s = 0) := by
  refine ⟨?_, ?_, ?_, ?_⟩
  · intro model s p hp
    simp [anthropicCostUSD, hp]
  · intro model s kv hne hfind
    simp [anthropicCostUSD, lookup_eq_none_of_ne model _ hne, hfind]
  · intro model s h
    have h1 : anthropicModelPricing.lookup model = none :=
      lookup_eq_none_of_ne model _ (fun e he => (h e he).1)
    have h2 : anthropicModelPricing.find? (fun e => goHasPrefix model e.1) = none :=
      List.find?_eq_none.mpr (fun e he => by simp [(h e he).2])
    simp [anthropicCostUSD, h1, h2]
  · intro model s h
    simp [openaiCostUSD, lookup_eq_none_of_ne model _ h]

/-- Witness for the amended C5: `claude-3-5-sonnet-20241022` has no exact
Anthropic entry but the key `claude-3-5-sonnet` leads it, so its price is
used; `gpt-4o-2024-13-01` has no exact OpenAI entry, so its cost is 0. -/
theorem C5_amended_cost_policy_witness :
    anthropicCostUSD "claude-3-5-sonnet-20241022" c4anth =
      (c4anth.inputTokens : ℚ) * (3.00 : ℚ) / 1000000 +
        (c4anth.outputTokens : ℚ) * (15.00 : ℚ) / 1000000 ∧
    openaiCostUSD "gpt-4o-2024-13-01" c5stream = 0 :=
  ⟨C5_amended_cost_policy.2.1 "claude-3-5-sonnet-20241022" c4anth
      ("claude-3-5-sonnet", ⟨3.00, 15.00⟩) (by decide) (by rfl),
   C5_amended_cost_policy.2.2.2 "gpt-4o-2024-13-01" c5stream (by decide)⟩

/-! ## C6 -/

/-- Counterexample to C6 as stated: an OpenAI chunk with the abnormal
finish reason `length` (neither the ordinary stop `stop` nor the
tool-call stop `tool_calls`) leaves the decoder error-free — Err() stays
nil and the stream decodes normally. -/
theorem C6_counterexample :
    openaiIter [SSEItem.chunk ⟨[⟨⟨"assistant", "hi", []⟩, some "length"⟩], none⟩] =
      some (c6final, [Event.text "hi"]) ∧
    c6final.err = false ∧
    ¬ (("length" : String) = "stop" ∨ ("length" : String) = "tool_calls") :=
  ⟨by decide, rfl, by decide⟩

/-- C6 (amended): only the Anthropic decoder treats an abnormal
completion reason (anything other than empty, tool_use, or end_turn) as a
fatal decode error — the error flag is set and iteration stops at once —
while the OpenAI decoder never reads the finish reason at all: its
processing of a chunk line is identical for any two finish reasons. -/
theorem C6_amended_stop_reason_handling :
    (∀ (s : AnthStream) (u : Option AnthUsage) (reason : String) (rest : List AnthItem),
        reason ≠ "" → reason ≠ "tool_use" → reason ≠ "end_turn" →
        ∃ s', anthScan s (AnthItem.messageDelta u reason :: rest) = some (s', []) ∧
          s'.err = true) ∧
    (∀ (s : OpenAIStream) (d : ChatCompletionDelta) (fr fr' : Option String)
        (tail : List ChatCompletionChoice) (u : Option Usage),
        openaiProcessLine s (SSEItem.chunk ⟨⟨d, fr⟩ :: tail, u⟩) =
          openaiProcessLine s (SSEItem.chunk ⟨⟨d, fr'⟩ :: tail, u⟩)) := by
  constructor
  · intro s u reason rest h1 h2 h3
    cases u with
    | none =>
      refine ⟨{ s with err := true }, ?_, rfl⟩
      simp [anthScan, anthProcessLine, h1, h2, h3]
    | some uu =>
      refine ⟨{ s with inputTokens := s.inputTokens + uu.inputTokens, outputTokens := s.outputTokens + uu.outputTokens, err := true }, ?_, rfl⟩
      simp [anthScan, anthProcessLine, h1, h2, h3]
  · intro s d fr fr' tail u
    rfl

/-- Witness for the amended C6: the abnormal Anthropic reason
`max_tokens` halts with the error flag set; the OpenAI decoder treats the
reasons `length` and `stop` identically. -/
theorem C6_amended_stop_reason_handling_witness :
    (∃ s', anthScan initAnthStream [AnthItem.messageDelta none "max_tokens"] =
        some (s', []) ∧ s'.err = true) ∧
    openaiProcessLine initOpenAIStream
        (SSEItem.chunk ⟨⟨⟨"assistant", "hi", []⟩, some "length"⟩ :: [], none⟩) =
      openaiProcessLine initOpenAIStream
        (SSEItem.chunk ⟨⟨⟨"assistant", "hi", []⟩, some "stop"⟩ :: [], none⟩) :=
  ⟨C6_amended_stop_reason_handling.1 initAnthStream none "max_tokens" []
      (by decide) (by decide) (by decide),
   C6_amended_stop_reason_handling.2 initOpenAIStream ⟨"assistant", "hi", []⟩
      (some "length") (some "stop") [] none⟩

end GoLLMs
